import Mathlib

/-!
Verification of the powerfour employee-compensation system against its
natural-language specification.

The repository ships three source files: the express bootstrap
(src/src/index.js), the frontend application (src/frontend/src/App.tsx) and
the frontend API client (src/unnamed/part_000, the `api` module imported by
App.tsx).  The backend decision core (the `routes` module wired in index.js:
profitability evaluator, suggestion rule engine, budget reconciler, analysis
aggregator and action ledger) is not part of the shipped sources, so those
components are modelled from the specification text, as flagged by the
doc comments below.  The frontend computations are embedded directly from
App.tsx.

Monetary amounts and percentages are embedded as rationals (JS numbers on
the values the program manipulates), salaries rounded to the currency unit
as integers cast back into the rationals.
-/

/-- Canonical backend action enum, spellings per the api module
(src/unnamed/part_000, `DecisionAction`). -/
inductive DecisionAction where
  | FIRE
  | PROMOTE
  | DECREASE_SALARY
  | NO_CHANGE
deriving DecidableEq

/-- Performance band enum (src/unnamed/part_000, `PerformanceBand`). -/
inductive PerformanceBand where
  | elite
  | strong
  | stable
  | risk
deriving DecidableEq

/-- Experience band enum (src/unnamed/part_000, `ExperienceBand`). -/
inductive ExperienceBand where
  | principal
  | senior
  | mid
  | junior
deriving DecidableEq

namespace Frontend

/-- UI-side action union (App.tsx, `UIDecisionAction`). -/
inductive UIDecisionAction where
  | increase
  | decrease
  | keep
  | fire
deriving DecidableEq

/-- ASCII uppercase of one character, the behaviour of JS
`String.prototype.toUpperCase` on the ASCII action spellings used by the
program. -/
def jsCharToUpper (c : Char) : Char :=
  if 97 ≤ c.toNat ∧ c.toNat ≤ 122 then Char.ofNat (c.toNat - 32) else c

/-- ASCII uppercase of a string (JS `toUpperCase` over the characters the
program compares against). -/
def jsToUpper (s : String) : String :=
  ⟨s.data.map jsCharToUpper⟩

/-- App.tsx lines 35-48: map a backend action string (possibly absent) to a
UI action.  The source uppercases the string and switches on it, with
`NO_CHANGE` and the default case both yielding `keep`. -/
def mapBackendAction (action : Option String) : UIDecisionAction :=
  match action with
  | none => .keep
  | some s =>
    let u := jsToUpper s
    if u = "FIRE" then .fire
    else if u = "PROMOTE" then .increase
    else if u = "DECREASE_SALARY" then .decrease
    else .keep

/-- App.tsx lines 51-63: map a UI action to the backend action enum. -/
def mapUIActionToBackend (action : UIDecisionAction) : DecisionAction :=
  match action with
  | .fire => .FIRE
  | .increase => .PROMOTE
  | .decrease => .DECREASE_SALARY
  | .keep => .NO_CHANGE

/-- The four canonical backend spellings as strings (the values of the
`DecisionAction` string union in src/unnamed/part_000). -/
def encodeAction (a : DecisionAction) : String :=
  match a with
  | .FIRE => "FIRE"
  | .PROMOTE => "PROMOTE"
  | .DECREASE_SALARY => "DECREASE_SALARY"
  | .NO_CHANGE => "NO_CHANGE"

/-- Employee record as the frontend consumes it (src/unnamed/part_000,
`Employee`), restricted to the fields the analysed computations read.
`salary` and `revenue` are optional here because App.tsx defensively
coalesces them (`emp.salary || 0`). -/
structure FEmployee where
  ssid : String
  name : String
  salary : Option ℚ
  revenue : Option ℚ
  status : String
deriving DecidableEq

/-- Per-employee profit as App.tsx computes it (lines 126 and 334):
`(revenue || 0) - (salary || 0)`. -/
def employeeProfit (e : FEmployee) : ℚ :=
  e.revenue.getD 0 - e.salary.getD 0

/-- Per-employee margin as App.tsx computes it (lines 127 and 335):
`revenue ? profit / revenue : 0`, i.e. 0 when revenue is absent or zero
(JS falsiness), the quotient otherwise. -/
def employeeMargin (e : FEmployee) : ℚ :=
  match e.revenue with
  | none => 0
  | some r => if r = 0 then 0 else employeeProfit e / r

/-- Accumulator of the `orgSummary` reduction (App.tsx lines 139-157). -/
structure OrgTotals where
  atRisk : Nat
  totalSalary : ℚ
  totalRevenue : ℚ
  netProfit : ℚ
deriving DecidableEq

/-- One step of the `orgSummary` reduce callback (App.tsx lines 141-150). -/
def orgStep (acc : OrgTotals) (e : FEmployee) : OrgTotals :=
  let salary := e.salary.getD 0
  let revenue := e.revenue.getD 0
  let profit := revenue - salary
  { atRisk := acc.atRisk + (if profit < 0 then 1 else 0)
    totalSalary := acc.totalSalary + salary
    totalRevenue := acc.totalRevenue + revenue
    netProfit := acc.netProfit + profit }

/-- The `orgSummary` totals (App.tsx lines 139-157): a reduce over the whole
employee list with zero initial totals. -/
def orgTotals (emps : List FEmployee) : OrgTotals :=
  emps.foldl orgStep { atRisk := 0, totalSalary := 0, totalRevenue := 0, netProfit := 0 }

/-- The derived organisation margin (App.tsx line 160):
`totalRevenue === 0 ? 0 : netProfit / totalRevenue`. -/
def orgMargin (t : OrgTotals) : ℚ :=
  if t.totalRevenue = 0 then 0 else t.netProfit / t.totalRevenue

/-- The employee rows rendered by the analysis table (App.tsx line 333):
`employees.filter(emp => emp.status !== 'FIRED')`. -/
def analysisRows (emps : List FEmployee) : List FEmployee :=
  emps.filter (fun e => !(e.status == "FIRED"))

end Frontend

namespace Backend

/-- Modelled from the spec: lifecycle status of an employee record (spec
section 3); the backend routes module holding the authoritative record is
not among the shipped sources. -/
inductive EmpStatus where
  | active
  | fired
deriving DecidableEq, BEq

/-- Modelled from the spec: the authoritative backend employee record
(spec section 3), restricted to the fields the decision core reads. -/
structure BEmployee where
  ssid : String
  name : String
  role : String
  performance : PerformanceBand
  experience : ExperienceBand
  salary : ℚ
  revenue : ℚ
  status : EmpStatus
deriving DecidableEq

/-- Modelled from the spec: market salary band (spec sections 3 and 4.1),
an injectable role-and-experience lookup result. -/
structure MarketBand where
  low : ℚ
  mid : ℚ
  high : ℚ
deriving DecidableEq

/-- Modelled from the spec: the tunable configuration of the suggestion
rule engine (spec sections 4.2 and 9: thresholds and interpolation factors
are configuration, not hard-coded policy). -/
structure RuleConfig where
  lowMargin : ℚ
  marginalMargin : ℚ
  strongMargin : ℚ
  cutFactor : ℚ
  raiseFactor : ℚ
  confSlope : ℚ
deriving DecidableEq

/-- Modelled from the spec: the per-employee signals the rule engine
consumes (spec section 4.2): profit, margin, current salary, performance
and experience bands and the market band. -/
structure SignalInput where
  profit : ℚ
  margin : ℚ
  currentSalary : ℚ
  perf : PerformanceBand
  exp : ExperienceBand
  band : MarketBand
deriving DecidableEq

/-- Modelled from the spec: a candidate suggestion produced by the rule
engine (spec section 3, Suggestion). -/
structure BSuggestion where
  action : DecisionAction
  confidence : ℚ
  reasoning : String
  suggestedSalary : Option ℚ
  changePercent : Option ℚ
deriving DecidableEq

/-- Recommended change percent (spec section 4.2):
`(suggested - current) / current * 100`, guarded at a zero current salary. -/
def pctOf (current suggested : ℚ) : ℚ :=
  if current = 0 then 0 else (suggested - current) / current * 100

/-- Modelled from the spec: the suggestion rule engine (spec section 4.2),
an ordered first-match-wins rule list over the input signals.  Rationale
strings are templated deterministically from the matched rule and the
concrete numbers.  The backend routes module implementing it is not among
the shipped sources. -/
def suggestFor (cfg : RuleConfig) (s : SignalInput) : BSuggestion :=
  if s.margin < cfg.lowMargin ∧ s.perf = .risk then
    { action := .FIRE
      confidence := min 1 ((cfg.lowMargin - s.margin) * cfg.confSlope)
      reasoning := "severely negative margin " ++ toString s.margin ++ " with low performance: terminate"
      suggestedSalary := none
      changePercent := none }
  else if s.margin < cfg.marginalMargin ∧ s.perf ≠ .risk then
    let sug := max s.band.low ((1 - cfg.cutFactor) * s.currentSalary + cfg.cutFactor * s.band.low)
    { action := .DECREASE_SALARY
      confidence := min 1 (max 0 (cfg.marginalMargin - s.margin))
      reasoning := "margin " ++ toString s.margin ++ " below marginal threshold: decrease toward market low " ++ toString s.band.low
      suggestedSalary := some sug
      changePercent := some (pctOf s.currentSalary sug) }
  else if cfg.strongMargin < s.margin ∧ (s.perf = .elite ∨ s.perf = .strong) ∧ s.currentSalary < s.band.mid then
    let target := if s.perf = .elite then s.band.high else s.band.mid
    let sug := min target ((1 - cfg.raiseFactor) * s.currentSalary + cfg.raiseFactor * target)
    { action := .PROMOTE
      confidence := min 1 (max 0 (s.margin - cfg.strongMargin))
      reasoning := "margin " ++ toString s.margin ++ " strongly positive and salary below market point " ++ toString target ++ ": promote"
      suggestedSalary := some sug
      changePercent := some (pctOf s.currentSalary sug) }
  else
    { action := .NO_CHANGE
      confidence := max 0 (min 1 (min (s.margin - cfg.marginalMargin) (cfg.strongMargin - s.margin)))
      reasoning := "no strong signal at margin " ++ toString s.margin ++ ": hold"
      suggestedSalary := none
      changePercent := none }

/-- Modelled from the spec: per-employee profit and margin (spec section
4.1): `profit = revenue - salary`, `margin = profit / revenue` with margin
0 at zero revenue. -/
def signalOf (band : MarketBand) (e : BEmployee) : SignalInput :=
  { profit := e.revenue - e.salary
    margin := if e.revenue = 0 then 0 else (e.revenue - e.salary) / e.revenue
    currentSalary := e.salary
    perf := e.performance
    exp := e.experience
    band := band }

/-- The rule engine applied to one employee given their market band. -/
def suggestOf (cfg : RuleConfig) (band : MarketBand) (e : BEmployee) : BSuggestion :=
  suggestFor cfg (signalOf band e)

end Backend

namespace Backend

/-- Modelled from the spec: a reconciler candidate, one per active employee
(spec section 4.3): identity, financial signal, the rule-engine candidate
action with its suggested salary, the market band used for escalation
figures, and the escalation-set membership flag the reconciler computes
(original candidate NO_CHANGE or PROMOTE). -/
structure Candidate where
  ssid : String
  currentSalary : ℚ
  profit : ℚ
  perf : PerformanceBand
  band : MarketBand
  action : DecisionAction
  suggestedSalary : Option ℚ
  escal : Bool
deriving DecidableEq

/-- Modelled from the spec: the payroll contribution of one final
suggestion (spec section 4.3 step 1 and section 4.4): FIRE contributes 0,
NO_CHANGE the current salary, DECREASE_SALARY and PROMOTE the suggested
salary when present, else the current salary. -/
def contribution (c : Candidate) : ℚ :=
  match c.action with
  | .FIRE => 0
  | .NO_CHANGE => c.currentSalary
  | .DECREASE_SALARY => c.suggestedSalary.getD c.currentSalary
  | .PROMOTE => c.suggestedSalary.getD c.currentSalary

/-- Aggregate suggested payroll of a candidate list (spec section 4.3
step 1). -/
def aggregate (cs : List Candidate) : ℚ :=
  (cs.map contribution).sum

/-- Modelled from the spec: the decreased salary assigned when the
reconciler escalates a candidate to DECREASE_SALARY (spec section 4.2 rule
2): interpolated toward the market band low end, bounded below by the
market minimum. -/
def decreaseFigure (cfg : RuleConfig) (c : Candidate) : ℚ :=
  max c.band.low ((1 - cfg.cutFactor) * c.currentSalary + cfg.cutFactor * c.band.low)

/-- Severity rank of an action along the escalation chain
NO_CHANGE / PROMOTE, then DECREASE_SALARY, then FIRE (spec glossary). -/
def severity (a : DecisionAction) : Nat :=
  match a with
  | .FIRE => 2
  | .DECREASE_SALARY => 1
  | .NO_CHANGE => 0
  | .PROMOTE => 0

/-- Modelled from the spec: escalate a candidate one severity level
(spec section 4.3 step 3 and glossary): NO_CHANGE and PROMOTE move to
DECREASE_SALARY with a freshly computed decreased figure, DECREASE_SALARY
moves to FIRE, FIRE is never escalated further. -/
def escalateOne (cfg : RuleConfig) (c : Candidate) : Candidate :=
  match c.action with
  | .NO_CHANGE => { c with action := .DECREASE_SALARY, suggestedSalary := some (decreaseFigure cfg c) }
  | .PROMOTE => { c with action := .DECREASE_SALARY, suggestedSalary := some (decreaseFigure cfg c) }
  | .DECREASE_SALARY => { c with action := .FIRE, suggestedSalary := none }
  | .FIRE => c

/-- Mark whether a candidate belongs to the escalation set (spec section
4.3 step 3: employees whose current candidate is NO_CHANGE or PROMOTE). -/
def tagEscal (c : Candidate) : Candidate :=
  { c with escal := decide (c.action = .NO_CHANGE ∨ c.action = .PROMOTE) }

/-- Escalate a candidate one level when it is in the escalation set,
otherwise leave it unchanged. -/
def escalateIfEligible (cfg : RuleConfig) (c : Candidate) : Candidate :=
  if c.escal then escalateOne cfg c else c

/-- Rank of a performance band in ascending order, worst first (spec
section 4.3 step 3 tie-break). -/
def perfRank (p : PerformanceBand) : Nat :=
  match p with
  | .risk => 0
  | .stable => 1
  | .strong => 2
  | .elite => 3

/-- Modelled from the spec: the reconciler priority order (spec section
4.3 step 3): ascending profitability, ties by ascending performance band,
then by identifier for determinism. -/
def priorLE (a b : Candidate) : Bool :=
  if a.profit < b.profit then true
  else if b.profit < a.profit then false
  else if perfRank a.perf < perfRank b.perf then true
  else if perfRank b.perf < perfRank a.perf then false
  else a.ssid ≤ b.ssid

/-- Insert into a list kept ordered by the given relation. -/
def insertBy (le : Candidate → Candidate → Bool) (x : Candidate) : List Candidate → List Candidate
  | [] => [x]
  | y :: ys => if le x y then x :: y :: ys else y :: insertBy le x ys

/-- Insertion sort by the given relation. -/
def sortBy (le : Candidate → Candidate → Bool) (l : List Candidate) : List Candidate :=
  l.foldr (insertBy le) []

/-- Modelled from the spec: one walk down the priority order (spec section
4.3 step 3): while the running aggregate exceeds the budget, escalate each
eligible candidate one severity level, recomputing the running aggregate
after each escalation; stop as soon as the aggregate fits.  `agg` is the
aggregate of the whole current candidate state. -/
def walkPass (cfg : RuleConfig) (b : ℚ) : ℚ → List Candidate → ℚ × List Candidate
  | agg, [] => (agg, [])
  | agg, c :: rest =>
    if agg ≤ b then (agg, c :: rest)
    else
      let c2 := escalateIfEligible cfg c
      let agg2 := agg - contribution c + contribution c2
      let p := walkPass cfg b agg2 rest
      (p.1, c2 :: p.2)

/-- Modelled from the spec: the budget reconciler (spec section 4.3); the
backend routes module implementing it is not among the shipped sources.
Within budget, every candidate is accepted unchanged; otherwise candidates
are tagged with escalation-set membership, ordered by priority and walked,
escalating one severity level per visit; the walk repeats once more if the
aggregate still exceeds the budget, which takes every escalation-set
member to FIRE (spec section 4.3 step 4: the floor is full termination of
the escalation set).  Exhaustion is a reported outcome, not an error. -/
def reconcile (cfg : RuleConfig) (b : ℚ) (cs : List Candidate) : List Candidate :=
  if aggregate cs ≤ b then cs
  else
    let ordered := sortBy priorLE (cs.map tagEscal)
    let p1 := walkPass cfg b (aggregate ordered) ordered
    if p1.1 ≤ b then p1.2
    else (walkPass cfg b p1.1 p1.2).2

/-- Modelled from the spec: counts of suggestions per action kind
(spec section 4.4), with a stable shape including zero counts. -/
structure ActionCounts where
  fire : Nat
  promote : Nat
  decrease : Nat
  noChange : Nat
deriving DecidableEq

/-- Count final suggestions per action kind. -/
def countsOf (cs : List Candidate) : ActionCounts :=
  { fire := cs.countP (fun c => c.action == .FIRE)
    promote := cs.countP (fun c => c.action == .PROMOTE)
    decrease := cs.countP (fun c => c.action == .DECREASE_SALARY)
    noChange := cs.countP (fun c => c.action == .NO_CHANGE) }

/-- Classification of the projected-savings delta (spec section 3,
AnalysisSummary). -/
inductive SavingsType where
  | savings
  | increase
deriving DecidableEq

/-- Modelled from the spec: the ephemeral analysis summary (spec section
3): budget ceiling, current and suggested totals, total revenue, projected
savings with its classification, and per-action counts. -/
structure AnalysisSummary where
  companyBudget : ℚ
  totalCurrentSalaries : ℚ
  totalSuggestedSalaries : ℚ
  totalRevenue : ℚ
  projectedSavings : ℚ
  projectedSavingsType : SavingsType
  counts : ActionCounts
deriving DecidableEq

/-- Analysis response: the summary plus the final per-employee
suggestions. -/
structure AnalyzeResponse where
  summary : AnalysisSummary
  results : List Candidate
deriving DecidableEq

/-- Errors of the two operations of spec section 6. -/
inductive AnalyzeError where
  | invalidBudget
deriving DecidableEq

/-- Build the candidate of one employee from the rule engine output
(spec section 2 data flow). -/
def candidateOf (cfg : RuleConfig) (mkt : String → ExperienceBand → MarketBand) (e : BEmployee) : Candidate :=
  let band := mkt e.role e.experience
  let sug := suggestOf cfg band e
  { ssid := e.ssid
    currentSalary := e.salary
    profit := e.revenue - e.salary
    perf := e.performance
    band := band
    action := sug.action
    suggestedSalary := sug.suggestedSalary
    escal := false }

/-- Modelled from the spec: the Analyze operation (spec section 6):
rejects a non-positive budget, otherwise runs the pure pipeline over the
active employees and always returns a summary; a budget shortfall is
embedded in the summary, never thrown (spec section 7). -/
def analyze (cfg : RuleConfig) (mkt : String → ExperienceBand → MarketBand) (b : ℚ) (emps : List BEmployee) : Except AnalyzeError AnalyzeResponse :=
  if b ≤ 0 then .error .invalidBudget
  else
    let active := emps.filter (fun e => e.status == EmpStatus.active)
    let cands := active.map (candidateOf cfg mkt)
    let final := reconcile cfg b cands
    let totalCur := (active.map (fun e => e.salary)).sum
    let totalSug := aggregate final
    let savings := totalCur - totalSug
    .ok
      { summary :=
          { companyBudget := b
            totalCurrentSalaries := totalCur
            totalSuggestedSalaries := totalSug
            totalRevenue := (active.map (fun e => e.revenue)).sum
            projectedSavings := savings
            projectedSavingsType := if savings < 0 then .increase else .savings
            counts := countsOf final }
        results := final }

end Backend

namespace Backend

/-- Round a rational amount to the currency smallest unit (spec section
4.5), as an integral amount cast back into the rationals. -/
def roundUnit (q : ℚ) : ℚ :=
  ((round q : ℤ) : ℚ)

/-- The salary produced by a percent change (spec section 4.5):
`newSalary = currentSalary * (1 + changePercent / 100)` rounded to the
currency smallest unit. -/
def newSalaryFor (e : BEmployee) (p : ℚ) : ℚ :=
  roundUnit (e.salary * (1 + p / 100))

/-- Modelled from the spec: the details payload of an audit entry (spec
section 3, ActionRecord). -/
structure ActionDetails where
  effect : String
  previousSalary : Option ℚ
  newSalary : Option ℚ
  salary : Option ℚ
  changePercent : Option ℚ
deriving DecidableEq

/-- Modelled from the spec: an immutable audit entry (spec section 3,
ActionRecord), ordered by application time via `appliedAt`. -/
structure ActionRecord where
  ssid : String
  action : String
  note : Option String
  details : ActionDetails
  appliedAt : Nat
deriving DecidableEq

/-- Modelled from the spec: the mutable system state the Action Ledger
operates on: the employee records and the append-only ledger. -/
structure SystemState where
  employees : List BEmployee
  ledger : List ActionRecord
deriving DecidableEq

/-- Error taxonomy of ApplyAction (spec sections 4.5 and 7):
input-validation errors, the distinct not-found error, and the transient
storage failure used for fault injection. -/
inductive ApplyError where
  | notFound
  | invalidAction
  | invalidChangePercent
  | storageFailure
deriving DecidableEq

/-- Decode an action string against the four recognized kinds (spec
section 4.5, exact spellings per section 6). -/
def decodeAction (a : String) : Option DecisionAction :=
  if a = "FIRE" then some .FIRE
  else if a = "PROMOTE" then some .PROMOTE
  else if a = "DECREASE_SALARY" then some .DECREASE_SALARY
  else if a = "NO_CHANGE" then some .NO_CHANGE
  else none

/-- Resolve an identifier to an active employee record (spec section
4.5). -/
def findActive (st : SystemState) (ssid : String) : Option BEmployee :=
  st.employees.find? (fun e => e.ssid == ssid && e.status == EmpStatus.active)

/-- Modelled from the spec: the transactional commit of one apply call
(spec sections 5 and 6): the employee-record update and the ledger-entry
append are committed together or, when the storage fault fires, not at
all.  Returns the new state, the appended entry and the updated record. -/
def commit (fault : Bool) (st : SystemState) (ssid : String) (e2 : BEmployee) (rec : ActionRecord) : Except ApplyError (SystemState × ActionRecord × BEmployee) :=
  if fault then .error .storageFailure
  else
    .ok
      ( { employees := st.employees.map (fun x => if x.ssid == ssid then e2 else x)
          ledger := st.ledger ++ [rec] }
      , rec
      , e2 )

/-- Modelled from the spec: the Action Ledger apply operation (spec
section 4.5); the backend routes module implementing it is not among the
shipped sources.  Validates the action kind, resolves the employee,
validates the change percent where one is required, computes the mutation
and audit entry per action kind and commits both atomically.  The `fault`
flag injects a storage failure at the commit point. -/
def applyActionF (fault : Bool) (st : SystemState) (ssid : String) (action : String) (note : Option String) (pct : Option ℚ) : Except ApplyError (SystemState × ActionRecord × BEmployee) :=
  match decodeAction action with
  | none => .error .invalidAction
  | some act =>
    match findActive st ssid with
    | none => .error .notFound
    | some e =>
      match act with
      | .FIRE =>
        commit fault st ssid { e with status := .fired }
          { ssid := ssid, action := action, note := note
            details :=
              { effect := "terminated", previousSalary := some e.salary
                newSalary := none, salary := none, changePercent := none }
            appliedAt := st.ledger.length }
      | .NO_CHANGE =>
        commit fault st ssid e
          { ssid := ssid, action := action, note := note
            details :=
              { effect := "no action taken", previousSalary := none
                newSalary := none, salary := some e.salary, changePercent := none }
            appliedAt := st.ledger.length }
      | .DECREASE_SALARY =>
        match pct with
        | none => .error .invalidChangePercent
        | some p =>
          if newSalaryFor e p < 0 then .error .invalidChangePercent
          else
            commit fault st ssid { e with salary := newSalaryFor e p }
              { ssid := ssid, action := action, note := note
                details :=
                  { effect := "salary decreased", previousSalary := some e.salary
                    newSalary := some (newSalaryFor e p), salary := none, changePercent := some p }
                appliedAt := st.ledger.length }
      | .PROMOTE =>
        match pct with
        | none => .error .invalidChangePercent
        | some p =>
          if newSalaryFor e p < 0 then .error .invalidChangePercent
          else
            commit fault st ssid { e with salary := newSalaryFor e p }
              { ssid := ssid, action := action, note := note
                details :=
                  { effect := "salary increased", previousSalary := some e.salary
                    newSalary := some (newSalaryFor e p), salary := none, changePercent := some p }
                appliedAt := st.ledger.length }

/-- The ApplyAction operation without an injected fault. -/
def applyAction (st : SystemState) (ssid : String) (action : String) (note : Option String) (pct : Option ℚ) : Except ApplyError (SystemState × ActionRecord × BEmployee) :=
  applyActionF false st ssid action note pct

/-- The state the caller observes after an apply call: the committed state
on success, the unchanged pre-call state on any failure (spec section 7:
storage failures leave the system in its pre-call state). -/
def resultState (st : SystemState) (r : Except ApplyError (SystemState × ActionRecord × BEmployee)) : SystemState :=
  match r with
  | .ok (st2, _, _) => st2
  | .error _ => st

/-- Number of employee records that differ between two states of equal
length, position by position. -/
def mutationCount (st st2 : SystemState) : Nat :=
  ((st.employees.zip st2.employees).filter (fun q => decide (q.1 ≠ q.2))).length

end Backend

namespace Frontend

theorem jsCharToUpper_toNat (n : Nat) (h : n < 55296) : (Char.ofNat n).toNat = n := by
  have hv : n.isValidChar := Or.inl h
  simp only [Char.ofNat, dif_pos hv]
  rfl

theorem jsCharToUpper_idem (c : Char) : jsCharToUpper (jsCharToUpper c) = jsCharToUpper c := by
  unfold jsCharToUpper
  by_cases h : 97 ≤ c.toNat ∧ c.toNat ≤ 122
  · have hn : (Char.ofNat (c.toNat - 32)).toNat = c.toNat - 32 :=
      jsCharToUpper_toNat _ (by omega)
    simp only [if_pos h, hn]
    rw [if_neg (by omega)]
  · simp only [if_neg h]

theorem jsToUpper_idem (s : String) : jsToUpper (jsToUpper s) = jsToUpper s := by
  obtain ⟨l⟩ := s
  simp only [jsToUpper, List.map_map]
  exact congrArg String.mk (List.map_congr_left (fun a _ => jsCharToUpper_idem a))

theorem orgFold_totalSalary (l : List FEmployee) (acc : OrgTotals) :
    (l.foldl orgStep acc).totalSalary = acc.totalSalary + (l.map (fun e => e.salary.getD 0)).sum := by
  induction l generalizing acc with
  | nil => simp
  | cons e t ih => simp [orgStep, ih, add_assoc]

theorem orgFold_totalRevenue (l : List FEmployee) (acc : OrgTotals) :
    (l.foldl orgStep acc).totalRevenue = acc.totalRevenue + (l.map (fun e => e.revenue.getD 0)).sum := by
  induction l generalizing acc with
  | nil => simp
  | cons e t ih => simp [orgStep, ih, add_assoc]

theorem orgFold_netProfit (l : List FEmployee) (acc : OrgTotals) :
    (l.foldl orgStep acc).netProfit = acc.netProfit + (l.map (fun e => e.revenue.getD 0 - e.salary.getD 0)).sum := by
  induction l generalizing acc with
  | nil => simp
  | cons e t ih => simp [orgStep, ih, add_assoc]

theorem orgFold_atRisk (l : List FEmployee) (acc : OrgTotals) :
    (l.foldl orgStep acc).atRisk = acc.atRisk + l.countP (fun e => decide (e.revenue.getD 0 - e.salary.getD 0 < 0)) := by
  induction l generalizing acc with
  | nil => simp
  | cons e t ih =>
    by_cases h : e.revenue.getD 0 - e.salary.getD 0 < 0
    · rw [List.foldl_cons, ih, List.countP_cons]
      simp only [orgStep, if_pos h, decide_eq_true h, if_true]
      omega
    · rw [List.foldl_cons, ih, List.countP_cons]
      simp only [orgStep, if_neg h, decide_eq_false h, Bool.false_eq_true, if_false]
      omega

theorem sum_map_sub (l : List FEmployee) :
    (l.map (fun e => e.revenue.getD 0 - e.salary.getD 0)).sum
      = (l.map (fun e => e.revenue.getD 0)).sum - (l.map (fun e => e.salary.getD 0)).sum := by
  induction l with
  | nil => simp
  | cons e t ih =>
    simp only [List.map_cons, List.sum_cons, ih]
    ring

end Frontend

/-- Claim C10: the frontend organization summary is a total function that
treats a missing salary or revenue as 0; totalSalary, totalRevenue and
netProfit are the sums of the per-employee values, netProfit equals
totalRevenue minus totalSalary, and atRisk counts exactly the employees
with revenue minus salary negative. -/
theorem C10_orgSummary_totals (emps : List Frontend.FEmployee) :
    (Frontend.orgTotals emps).totalSalary = (emps.map (fun e => e.salary.getD 0)).sum ∧
    (Frontend.orgTotals emps).totalRevenue = (emps.map (fun e => e.revenue.getD 0)).sum ∧
    (Frontend.orgTotals emps).netProfit = (emps.map (fun e => e.revenue.getD 0 - e.salary.getD 0)).sum ∧
    (Frontend.orgTotals emps).netProfit = (Frontend.orgTotals emps).totalRevenue - (Frontend.orgTotals emps).totalSalary ∧
    (Frontend.orgTotals emps).atRisk = emps.countP (fun e => decide (e.revenue.getD 0 - e.salary.getD 0 < 0)) := by
  have h1 := Frontend.orgFold_totalSalary emps { atRisk := 0, totalSalary := 0, totalRevenue := 0, netProfit := 0 }
  have h2 := Frontend.orgFold_totalRevenue emps { atRisk := 0, totalSalary := 0, totalRevenue := 0, netProfit := 0 }
  have h3 := Frontend.orgFold_netProfit emps { atRisk := 0, totalSalary := 0, totalRevenue := 0, netProfit := 0 }
  have h4 := Frontend.orgFold_atRisk emps { atRisk := 0, totalSalary := 0, totalRevenue := 0, netProfit := 0 }
  refine ⟨?_, ?_, ?_, ?_, ?_⟩
  · simpa [Frontend.orgTotals] using h1
  · simpa [Frontend.orgTotals] using h2
  · simpa [Frontend.orgTotals] using h3
  · simp only [Frontend.orgTotals] at h1 h2 h3 ⊢
    rw [h1, h2, h3, Frontend.sum_map_sub]
    ring
  · simpa [Frontend.orgTotals] using h4

/-- Claim C3: for every employee record the derived signal satisfies
profit = revenue - salary and margin = profit / revenue, with margin 0
whenever revenue is 0 (or absent), so the computation is total and no
division failure occurs; likewise for the organization margin. -/
theorem C3_employee_signal (e : Frontend.FEmployee) :
    Frontend.employeeProfit e = e.revenue.getD 0 - e.salary.getD 0 ∧
    (e.revenue.getD 0 = 0 → Frontend.employeeMargin e = 0) ∧
    (e.revenue.getD 0 ≠ 0 → Frontend.employeeMargin e = Frontend.employeeProfit e / e.revenue.getD 0) ∧
    ∀ t : Frontend.OrgTotals,
      (t.totalRevenue = 0 → Frontend.orgMargin t = 0) ∧
      (t.totalRevenue ≠ 0 → Frontend.orgMargin t = t.netProfit / t.totalRevenue) := by
  refine ⟨rfl, ?_, ?_, ?_⟩
  · intro h
    cases hr : e.revenue with
    | none => simp [Frontend.employeeMargin, hr]
    | some r =>
      rw [hr] at h
      simp only [Option.getD_some] at h
      simp [Frontend.employeeMargin, hr, h]
  · intro h
    cases hr : e.revenue with
    | none => rw [hr] at h; simp at h
    | some r =>
      rw [hr] at h
      simp only [Option.getD_some] at h
      simp [Frontend.employeeMargin, hr, h]
  · intro t
    constructor
    · intro h; simp [Frontend.orgMargin, h]
    · intro h; simp [Frontend.orgMargin, h]

/-- Witness for claim C3 at a concrete revenue-less employee and a concrete
zero-revenue totals record. -/
theorem C3_employee_signal_witness :
    Frontend.employeeMargin { ssid := "E1", name := "Ann", salary := some 5, revenue := none, status := "ACTIVE" } = 0 :=
  (C3_employee_signal { ssid := "E1", name := "Ann", salary := some 5, revenue := none, status := "ACTIVE" }).2.1 rfl

/-- Claim C9: the frontend action mappings round-trip on the four
canonical actions, mapBackendAction is total with absent actions going to
keep, is case-insensitive, and sends every unrecognized spelling to
keep. -/
theorem C9_action_round_trip :
    (∀ a : DecisionAction, Frontend.mapUIActionToBackend (Frontend.mapBackendAction (some (Frontend.encodeAction a))) = a) ∧
    Frontend.mapBackendAction none = .keep ∧
    (∀ s : String, Frontend.mapBackendAction (some s) = Frontend.mapBackendAction (some (Frontend.jsToUpper s))) ∧
    (∀ s : String, Frontend.jsToUpper s ≠ "FIRE" → Frontend.jsToUpper s ≠ "PROMOTE" →
      Frontend.jsToUpper s ≠ "DECREASE_SALARY" → Frontend.mapBackendAction (some s) = .keep) := by
  refine ⟨?_, rfl, ?_, ?_⟩
  · intro a
    cases a <;> rfl
  · intro s
    simp only [Frontend.mapBackendAction, Frontend.jsToUpper_idem]
  · intro s h1 h2 h3
    simp only [Frontend.mapBackendAction, if_neg h1, if_neg h2, if_neg h3]

/-- Witness for claim C9 at a concrete unrecognized lower-case string. -/
theorem C9_action_round_trip_witness :
    Frontend.mapBackendAction (some ("bogus")) = .keep :=
  C9_action_round_trip.2.2.2 ("bogus") (by decide) (by decide) (by decide)

/-- The concrete fired employee used to evaluate the organization summary
aggregates. -/
def firedEx : Frontend.FEmployee :=
  { ssid := "E9", name := "Zed", salary := some 100000, revenue := some 40000, status := "FIRED" }

/-- Claim C2 evaluation: App.tsx excludes fired employees from the
analysis table rows but its organization summary still counts a fired
employee in every aggregate total: on a list holding one fired employee
the totals are the fired employee's own figures, not zero, and the at-risk
count is 1. -/
theorem C2_fired_counted_in_totals :
    firedEx.status = "FIRED" ∧
    (Frontend.orgTotals [firedEx]).totalSalary = 100000 ∧
    (Frontend.orgTotals [firedEx]).totalRevenue = 40000 ∧
    (Frontend.orgTotals [firedEx]).netProfit = -60000 ∧
    (Frontend.orgTotals [firedEx]).atRisk = 1 ∧
    Frontend.analysisRows [firedEx] = [] := by
  refine ⟨rfl, ?_, ?_, ?_, ?_, rfl⟩ <;>
    norm_num [Frontend.orgTotals, Frontend.orgStep, firedEx]

/-- A concrete rule configuration used by witnesses. -/
def cfg0 : Backend.RuleConfig :=
  { lowMargin := -1, marginalMargin := 0, strongMargin := 1/2
    cutFactor := 1/2, raiseFactor := 1/2, confSlope := 1/2 }

/-- A concrete market band used by witnesses. -/
def band0 : Backend.MarketBand := { low := 50, mid := 80, high := 120 }

/-- Claim C8: the suggestion rule engine is deterministic and reads only
the declared signals: two employees with identical salary, revenue,
performance band and experience band, analysed under the same rule
configuration and market band, receive the identical suggestion (action,
confidence and rationale string alike), whatever their identifier, name,
role or status. -/
theorem C8_suggestion_deterministic (cfg : Backend.RuleConfig) (band : Backend.MarketBand)
    (e1 e2 : Backend.BEmployee)
    (hs : e1.salary = e2.salary) (hr : e1.revenue = e2.revenue)
    (hp : e1.performance = e2.performance) (hx : e1.experience = e2.experience) :
    Backend.suggestOf cfg band e1 = Backend.suggestOf cfg band e2 := by
  simp only [Backend.suggestOf, Backend.signalOf, hs, hr, hp, hx]

/-- Witness for claim C8: two employees that differ in identifier, name,
role and status but share the financial and band signals receive the same
suggestion. -/
theorem C8_suggestion_deterministic_witness :
    Backend.suggestOf cfg0 band0
        { ssid := "A1", name := "Ann", role := "eng", performance := .stable
          experience := .mid, salary := 100, revenue := 200, status := .active }
      = Backend.suggestOf cfg0 band0
        { ssid := "B2", name := "Bob", role := "ops", performance := .stable
          experience := .mid, salary := 100, revenue := 200, status := .active } :=
  C8_suggestion_deterministic cfg0 band0 _ _ rfl rfl rfl rfl

/-- Claim C5: for ApplyAction with DECREASE_SALARY or PROMOTE and a
provided change percent, the new salary is currentSalary * (1 +
changePercent / 100) rounded to the currency smallest unit, and the ledger
entry details record the previous salary, the new salary and the effect
description. -/
theorem C5_salary_change (st : Backend.SystemState) (ssid : String) (note : Option String)
    (p : ℚ) (e : Backend.BEmployee)
    (hfind : Backend.findActive st ssid = some e)
    (hnn : ¬ Backend.newSalaryFor e p < 0) :
    (∃ st2 rec,
        Backend.applyAction st ssid ("PROMOTE") note (some p)
            = .ok (st2, rec, { e with salary := Backend.newSalaryFor e p }) ∧
        rec.details.effect = "salary increased" ∧
        rec.details.previousSalary = some e.salary ∧
        rec.details.newSalary = some (Backend.newSalaryFor e p) ∧
        rec.details.changePercent = some p) ∧
    (∃ st2 rec,
        Backend.applyAction st ssid ("DECREASE_SALARY") note (some p)
            = .ok (st2, rec, { e with salary := Backend.newSalaryFor e p }) ∧
        rec.details.effect = "salary decreased" ∧
        rec.details.previousSalary = some e.salary ∧
        rec.details.newSalary = some (Backend.newSalaryFor e p) ∧
        rec.details.changePercent = some p) := by
  have hdp : Backend.decodeAction ("PROMOTE") = some DecisionAction.PROMOTE := rfl
  have hdd : Backend.decodeAction ("DECREASE_SALARY") = some DecisionAction.DECREASE_SALARY := rfl
  constructor
  · refine ⟨
      { employees := st.employees.map (fun x => if x.ssid == ssid then { e with salary := Backend.newSalaryFor e p } else x)
        ledger := st.ledger ++
          [{ ssid := ssid, action := "PROMOTE", note := note
             details :=
               { effect := "salary increased", previousSalary := some e.salary
                 newSalary := some (Backend.newSalaryFor e p), salary := none
                 changePercent := some p }
             appliedAt := st.ledger.length }] },
      { ssid := ssid, action := "PROMOTE", note := note
        details :=
          { effect := "salary increased", previousSalary := some e.salary
            newSalary := some (Backend.newSalaryFor e p), salary := none
            changePercent := some p }
        appliedAt := st.ledger.length }, ?_, rfl, rfl, rfl, rfl⟩
    unfold Backend.applyAction Backend.applyActionF
    rw [hdp, hfind]
    simp only [if_neg hnn]
    rfl
  · refine ⟨
      { employees := st.employees.map (fun x => if x.ssid == ssid then { e with salary := Backend.newSalaryFor e p } else x)
        ledger := st.ledger ++
          [{ ssid := ssid, action := "DECREASE_SALARY", note := note
             details :=
               { effect := "salary decreased", previousSalary := some e.salary
                 newSalary := some (Backend.newSalaryFor e p), salary := none
                 changePercent := some p }
             appliedAt := st.ledger.length }] },
      { ssid := ssid, action := "DECREASE_SALARY", note := note
        details :=
          { effect := "salary decreased", previousSalary := some e.salary
            newSalary := some (Backend.newSalaryFor e p), salary := none
            changePercent := some p }
        appliedAt := st.ledger.length }, ?_, rfl, rfl, rfl, rfl⟩
    unfold Backend.applyAction Backend.applyActionF
    rw [hdd, hfind]
    simp only [if_neg hnn]
    rfl

/-- The employee of the spec scenario: ssid E123, current salary
800000. -/
def empE123 : Backend.BEmployee :=
  { ssid := "E123", name := "Eve", role := "eng", performance := .strong
    experience := .senior, salary := 800000, revenue := 1200000, status := .active }

/-- The system state holding the scenario employee with an empty ledger. -/
def stE123 : Backend.SystemState := { employees := [empE123], ledger := [] }

/-- Witness for claim C5, the spec scenario: PROMOTE with changePercent 10
on current salary 800000 yields new salary 880000 with effect salary
increased, previousSalary 800000 and newSalary 880000. -/
theorem C5_salary_change_witness :
    Backend.newSalaryFor empE123 10 = 880000 ∧
    ∃ st2 rec,
      Backend.applyAction stE123 ("E123") ("PROMOTE") none (some 10)
          = .ok (st2, rec, { empE123 with salary := Backend.newSalaryFor empE123 10 }) ∧
      rec.details.effect = "salary increased" ∧
      rec.details.previousSalary = some 800000 ∧
      rec.details.newSalary = some (Backend.newSalaryFor empE123 10) ∧
      rec.details.changePercent = some 10 := by
  have h880 : Backend.newSalaryFor empE123 10 = 880000 := by
    norm_num [Backend.newSalaryFor, Backend.roundUnit, empE123]
  refine ⟨h880, ?_⟩
  exact (C5_salary_change stE123 ("E123") none 10 empE123 rfl (by rw [h880]; norm_num)).1

/-- Claim C6 (amended): with validation precedence action kind, then
employee lookup, then change percent, ApplyAction fails with
InvalidAction exactly when the action decodes to none of the four kinds,
with NotFound exactly when the action is recognized but the identifier
does not resolve to an active record, and with InvalidChangePercent
exactly when action and employee resolve, the action is DECREASE_SALARY
or PROMOTE and the percent is missing or would drive the salary negative;
on every failure nothing is mutated. -/
theorem C6_apply_error_conditions (st : Backend.SystemState) (ssid a : String)
    (note : Option String) (pct : Option ℚ) :
    (Backend.applyAction st ssid a note pct = .error .invalidAction ↔
      Backend.decodeAction a = none) ∧
    (Backend.applyAction st ssid a note pct = .error .notFound ↔
      Backend.decodeAction a ≠ none ∧ Backend.findActive st ssid = none) ∧
    (Backend.applyAction st ssid a note pct = .error .invalidChangePercent ↔
      ∃ e, Backend.findActive st ssid = some e ∧
        (Backend.decodeAction a = some .DECREASE_SALARY ∨ Backend.decodeAction a = some .PROMOTE) ∧
        (pct = none ∨ ∃ p, pct = some p ∧ Backend.newSalaryFor e p < 0)) ∧
    (∀ err, Backend.applyAction st ssid a note pct = .error err →
      Backend.resultState st (Backend.applyAction st ssid a note pct) = st) := by
  have hres : ∀ err, Backend.applyAction st ssid a note pct = .error err →
      Backend.resultState st (Backend.applyAction st ssid a note pct) = st := by
    intro err h
    rw [h]
    rfl
  refine ⟨?_, ?_, ?_, hres⟩ <;>
    · unfold Backend.applyAction Backend.applyActionF
      rcases hda : Backend.decodeAction a with _ | d
      · simp [hda]
      · rcases hf : Backend.findActive st ssid with _ | e
        · simp [hda, hf]
        · cases d
          case FIRE => simp [hda, hf, Backend.commit]
          case NO_CHANGE => simp [hda, hf, Backend.commit]
          case DECREASE_SALARY =>
            cases pct with
            | none => simp [hda, hf]
            | some p =>
              by_cases hns : Backend.newSalaryFor e p < 0
              · simp [hda, hf, hns]
              · simp [hda, hf, hns, Backend.commit]
          case PROMOTE =>
            cases pct with
            | none => simp [hda, hf]
            | some p =>
              by_cases hns : Backend.newSalaryFor e p < 0
              · simp [hda, hf, hns]
              · simp [hda, hf, hns, Backend.commit]

/-- Witness for claim C6: on a state not holding identifier E404, a
recognized action fails with NotFound. -/
theorem C6_apply_error_conditions_witness :
    Backend.applyAction stE123 ("E404") ("FIRE") none none = .error .notFound :=
  (C6_apply_error_conditions stE123 ("E404") ("FIRE") none none).2.1.mpr
    ⟨by decide, by decide⟩

/-- Counterexample to claim C6 as stated: on an input whose identifier
does not resolve AND whose action is unrecognized, ApplyAction fails with
InvalidAction, not NotFound, so fails-with-NotFound is not equivalent to
the identifier not resolving; the validation ladder (action kind first)
decides which error surfaces. -/
theorem C6_notFound_not_equivalent :
    Backend.findActive stE123 ("E404") = none ∧
    Backend.applyAction stE123 ("E404") ("BOGUS") none none = .error .invalidAction ∧
    Backend.applyAction stE123 ("E404") ("BOGUS") none none ≠ .error .notFound := by
  refine ⟨rfl, rfl, ?_⟩
  intro h
  exact absurd (Except.error.inj h) (by decide)

namespace Backend

theorem filter_zip_self_eq (f : BEmployee → BEmployee) (l : List BEmployee)
    (h : ∀ y ∈ l, f y = y) :
    ((l.zip (l.map f)).filter (fun q => decide (q.1 ≠ q.2))).length = 0 := by
  induction l with
  | nil => simp
  | cons x t ih =>
    have hx : f x = x := h x (List.mem_cons_self x t)
    have ht := ih (fun y hy => h y (List.mem_cons_of_mem x hy))
    rw [List.map_cons, List.zip_cons_cons, List.filter_cons, if_neg (by simp [hx])]
    exact ht

theorem mutation_map_le_one (l : List BEmployee) (ssid : String) (e2 : BEmployee)
    (h : (l.map (fun e => e.ssid)).Nodup) :
    ((l.zip (l.map (fun x => if x.ssid == ssid then e2 else x))).filter
        (fun q => decide (q.1 ≠ q.2))).length ≤ 1 := by
  induction l with
  | nil => simp
  | cons x t ih =>
    simp only [List.map_cons, List.nodup_cons] at h
    obtain ⟨hnotin, hnd⟩ := h
    by_cases hx : x.ssid = ssid
    · have htail : ∀ y ∈ t, (fun z => if z.ssid == ssid then e2 else z) y = y := by
        intro y hy
        have hyne : y.ssid ≠ ssid := by
          intro hcontra
          exact hnotin (by rw [← hx] at hcontra; exact List.mem_map.mpr ⟨y, hy, hcontra⟩)
        simp [hyne]
      have h0 := filter_zip_self_eq (fun z => if z.ssid == ssid then e2 else z) t htail
      rw [List.map_cons, List.zip_cons_cons, if_pos (by simp [hx]), List.filter_cons]
      by_cases hxe : x = e2
      · rw [if_neg (by simp [hxe])]
        rw [h0]
        omega
      · rw [if_pos (by simp [hxe]), List.length_cons, h0]
    · rw [List.map_cons, List.zip_cons_cons, if_neg (by simp [hx]), List.filter_cons,
        if_neg (by simp)]
      exact ih hnd

theorem commit_ok_props (st : SystemState) (ssid : String) (e2 : BEmployee)
    (rec0 : ActionRecord) (st2 : SystemState) (rec : ActionRecord) (emp : BEmployee)
    (h : commit false st ssid e2 rec0 = .ok (st2, rec, emp)) :
    st2.ledger = st.ledger ++ [rec] ∧
    st2.employees.length = st.employees.length ∧
    (∀ x ∈ st.employees, x.ssid ≠ ssid → x ∈ st2.employees) ∧
    ((st.employees.map (fun e => e.ssid)).Nodup → mutationCount st st2 ≤ 1) := by
  unfold commit at h
  simp only [Bool.false_eq_true, if_false] at h
  injection h with h1
  injection h1 with h2 h3
  injection h3 with h4 h5
  subst h2 h4
  refine ⟨rfl, List.length_map _ _, ?_, ?_⟩
  · intro x hx hne
    exact List.mem_map.mpr ⟨x, hx, by simp [hne]⟩
  · intro hnd
    exact mutation_map_le_one st.employees ssid e2 hnd

end Backend

/-- Claim C4: every successful ApplyAction call appends exactly one ledger
entry and performs at most one employee-record write (exactly the target
record), leaving every other record untouched; with a fault injected at
the commit point the call fails and the observable state is the pre-call
state, so the two effects are atomic. -/
theorem C4_apply_atomicity :
    (∀ (st : Backend.SystemState) (ssid a : String) (note : Option String)
        (pct : Option ℚ) (st2 : Backend.SystemState) (rec : Backend.ActionRecord)
        (emp : Backend.BEmployee),
        Backend.applyAction st ssid a note pct = .ok (st2, rec, emp) →
        st2.ledger = st.ledger ++ [rec] ∧
        st2.employees.length = st.employees.length ∧
        (∀ x ∈ st.employees, x.ssid ≠ ssid → x ∈ st2.employees) ∧
        ((st.employees.map (fun e => e.ssid)).Nodup → Backend.mutationCount st st2 ≤ 1)) ∧
    (∀ (st : Backend.SystemState) (ssid a : String) (note : Option String)
        (pct : Option ℚ), ∃ err,
        Backend.applyActionF true st ssid a note pct = .error err ∧
        Backend.resultState st (Backend.applyActionF true st ssid a note pct) = st) := by
  constructor
  · intro st ssid a note pct st2 rec emp hok
    unfold Backend.applyAction Backend.applyActionF at hok
    repeat' split at hok
    all_goals
      first
        | exact absurd hok (by simp)
        | exact Backend.commit_ok_props _ _ _ _ _ _ _ hok
  · intro st ssid a note pct
    suffices h : ∃ err, Backend.applyActionF true st ssid a note pct = .error err by
      obtain ⟨err, herr⟩ := h
      refine ⟨err, herr, ?_⟩
      rw [herr]
      rfl
    unfold Backend.applyActionF
    rcases hda : Backend.decodeAction a with _ | d
    · simp only [hda]
      exact ⟨.invalidAction, rfl⟩
    · rcases hf : Backend.findActive st ssid with _ | e
      · simp only [hda, hf]
        exact ⟨.notFound, rfl⟩
      · cases d
        case FIRE =>
          simp only [hda, hf]
          exact ⟨.storageFailure, rfl⟩
        case NO_CHANGE =>
          simp only [hda, hf]
          exact ⟨.storageFailure, rfl⟩
        case DECREASE_SALARY =>
          cases pct with
          | none =>
            simp only [hda, hf]
            exact ⟨.invalidChangePercent, rfl⟩
          | some p =>
            simp only [hda, hf]
            by_cases hns : Backend.newSalaryFor e p < 0
            · rw [if_pos hns]
              exact ⟨.invalidChangePercent, rfl⟩
            · rw [if_neg hns]
              exact ⟨.storageFailure, rfl⟩
        case PROMOTE =>
          cases pct with
          | none =>
            simp only [hda, hf]
            exact ⟨.invalidChangePercent, rfl⟩
          | some p =>
            simp only [hda, hf]
            by_cases hns : Backend.newSalaryFor e p < 0
            · rw [if_pos hns]
              exact ⟨.invalidChangePercent, rfl⟩
            · rw [if_neg hns]
              exact ⟨.storageFailure, rfl⟩

/-- The ledger entry appended by a NO_CHANGE apply on the scenario
state. -/
def recN : Backend.ActionRecord :=
  { ssid := "E123", action := "NO_CHANGE", note := none
    details :=
      { effect := "no action taken", previousSalary := none
        newSalary := none, salary := some 800000, changePercent := none }
    appliedAt := 0 }

/-- The state after a NO_CHANGE apply on the scenario state. -/
def stN : Backend.SystemState := { employees := [empE123], ledger := [recN] }

/-- Witness for claim C4: a concrete successful NO_CHANGE apply appends
exactly the one entry and mutates at most one record, and the same call
with an injected fault fails and leaves the observable state unchanged. -/
theorem C4_apply_atomicity_witness :
    stN.ledger = stE123.ledger ++ [recN] ∧
    Backend.mutationCount stE123 stN ≤ 1 ∧
    ∃ err, Backend.applyActionF true stE123 ("E123") ("NO_CHANGE") none none = .error err ∧
      Backend.resultState stE123 (Backend.applyActionF true stE123 ("E123") ("NO_CHANGE") none none) = stE123 :=
  ⟨(C4_apply_atomicity.1 stE123 ("E123") ("NO_CHANGE") none none stN recN empE123 rfl).1,
   (C4_apply_atomicity.1 stE123 ("E123") ("NO_CHANGE") none none stN recN empE123 rfl).2.2.2 (by decide),
   C4_apply_atomicity.2 stE123 ("E123") ("NO_CHANGE") none none⟩

namespace Backend

theorem aggregate_nil : aggregate [] = 0 := rfl

theorem aggregate_cons (c : Candidate) (l : List Candidate) :
    aggregate (c :: l) = contribution c + aggregate l := by
  simp [aggregate]

theorem tagEscal_action (c : Candidate) : (tagEscal c).action = c.action := rfl

theorem tagEscal_ssid (c : Candidate) : (tagEscal c).ssid = c.ssid := rfl

theorem tagEscal_salary (c : Candidate) : (tagEscal c).currentSalary = c.currentSalary := rfl

theorem tagEscal_profit (c : Candidate) : (tagEscal c).profit = c.profit := rfl

theorem tagEscal_sug (c : Candidate) : (tagEscal c).suggestedSalary = c.suggestedSalary := rfl

theorem tagEscal_escal_true (c : Candidate) :
    (tagEscal c).escal = true ↔ (c.action = .NO_CHANGE ∨ c.action = .PROMOTE) := by
  simp [tagEscal]

theorem escalateOne_ssid (cfg : RuleConfig) (c : Candidate) :
    (escalateOne cfg c).ssid = c.ssid := by
  cases hc : c.action <;> simp [escalateOne, hc]

theorem escalateOne_salary (cfg : RuleConfig) (c : Candidate) :
    (escalateOne cfg c).currentSalary = c.currentSalary := by
  cases hc : c.action <;> simp [escalateOne, hc]

theorem escalateOne_profit (cfg : RuleConfig) (c : Candidate) :
    (escalateOne cfg c).profit = c.profit := by
  cases hc : c.action <;> simp [escalateOne, hc]

theorem escalateOne_escal (cfg : RuleConfig) (c : Candidate) :
    (escalateOne cfg c).escal = c.escal := by
  cases hc : c.action <;> simp [escalateOne, hc]

theorem escalateIfEligible_ssid (cfg : RuleConfig) (c : Candidate) :
    (escalateIfEligible cfg c).ssid = c.ssid := by
  unfold escalateIfEligible
  split
  · exact escalateOne_ssid cfg c
  · rfl

theorem escalateIfEligible_salary (cfg : RuleConfig) (c : Candidate) :
    (escalateIfEligible cfg c).currentSalary = c.currentSalary := by
  unfold escalateIfEligible
  split
  · exact escalateOne_salary cfg c
  · rfl

theorem escalateIfEligible_profit (cfg : RuleConfig) (c : Candidate) :
    (escalateIfEligible cfg c).profit = c.profit := by
  unfold escalateIfEligible
  split
  · exact escalateOne_profit cfg c
  · rfl

theorem escalateIfEligible_escal (cfg : RuleConfig) (c : Candidate) :
    (escalateIfEligible cfg c).escal = c.escal := by
  unfold escalateIfEligible
  split
  · exact escalateOne_escal cfg c
  · rfl

theorem severity_le_escalateOne (cfg : RuleConfig) (c : Candidate) :
    severity c.action ≤ severity (escalateOne cfg c).action := by
  cases hc : c.action <;> simp [escalateOne, hc, severity]

theorem severity_le_escalateIfEligible (cfg : RuleConfig) (c : Candidate) :
    severity c.action ≤ severity (escalateIfEligible cfg c).action := by
  unfold escalateIfEligible
  split
  · exact severity_le_escalateOne cfg c
  · exact le_refl _

theorem escalateIfEligible_fire (cfg : RuleConfig) (c : Candidate)
    (h : c.action = .FIRE) : escalateIfEligible cfg c = c := by
  unfold escalateIfEligible
  split
  · show escalateOne cfg c = c
    simp [escalateOne, h]
  · rfl

theorem double_escalate_fire (cfg : RuleConfig) (c : Candidate)
    (hesc : c.escal = true) (h : c.action = .NO_CHANGE ∨ c.action = .PROMOTE) :
    (escalateIfEligible cfg (escalateIfEligible cfg c)).action = .FIRE := by
  have h1 : escalateIfEligible cfg c = escalateOne cfg c := by
    simp [escalateIfEligible, hesc]
  have hmid : (escalateOne cfg c).action = .DECREASE_SALARY := by
    rcases h with h | h <;> simp [escalateOne, h]
  have hesc2 : (escalateOne cfg c).escal = true := by
    rw [escalateOne_escal]
    exact hesc
  rw [h1]
  have h2 : escalateIfEligible cfg (escalateOne cfg c) = escalateOne cfg (escalateOne cfg c) := by
    simp [escalateIfEligible, hesc2]
  rw [h2]
  have h3 : ∀ d : Candidate, d.action = .DECREASE_SALARY → (escalateOne cfg d).action = .FIRE := by
    intro d hd
    simp [escalateOne, hd]
  exact h3 _ hmid

theorem mem_insertBy (le : Candidate → Candidate → Bool) (x y : Candidate) (l : List Candidate) :
    y ∈ insertBy le x l ↔ y = x ∨ y ∈ l := by
  induction l with
  | nil => simp [insertBy]
  | cons z t ih =>
    unfold insertBy
    split
    · simp only [List.mem_cons]
    · simp only [List.mem_cons, ih]
      tauto

theorem mem_sortBy (le : Candidate → Candidate → Bool) (y : Candidate) (l : List Candidate) :
    y ∈ sortBy le l ↔ y ∈ l := by
  induction l with
  | nil => simp [sortBy]
  | cons z t ih =>
    show y ∈ insertBy le z (sortBy le t) ↔ _
    rw [mem_insertBy]
    simp [ih]

theorem walkPass_fst_eq (cfg : RuleConfig) (b : ℚ) :
    ∀ (cs : List Candidate) (A agg : ℚ), agg = A + aggregate cs →
      (walkPass cfg b agg cs).1 = A + aggregate (walkPass cfg b agg cs).2 := by
  intro cs
  induction cs with
  | nil =>
    intro A agg h
    simpa [walkPass, aggregate] using h
  | cons c rest ih =>
    intro A agg h
    unfold walkPass
    by_cases hb : agg ≤ b
    · rw [if_pos hb]
      exact h
    · rw [if_neg hb]
      have h2 : agg - contribution c + contribution (escalateIfEligible cfg c)
          = (A + contribution (escalateIfEligible cfg c)) + aggregate rest := by
        rw [h, aggregate_cons]
        ring
      have h3 := ih (A + contribution (escalateIfEligible cfg c)) _ h2
      simp only []
      rw [h3, aggregate_cons]
      ring

theorem walkPass_over (cfg : RuleConfig) (b : ℚ) :
    ∀ (cs : List Candidate) (agg : ℚ), b < (walkPass cfg b agg cs).1 →
      (walkPass cfg b agg cs).2 = cs.map (escalateIfEligible cfg) := by
  intro cs
  induction cs with
  | nil =>
    intro agg _
    simp [walkPass]
  | cons c rest ih =>
    intro agg h
    unfold walkPass at h ⊢
    by_cases hb : agg ≤ b
    · rw [if_pos hb] at h
      exact absurd hb (not_le.mpr h)
    · rw [if_neg hb] at h ⊢
      simp only [] at h ⊢
      rw [List.map_cons, ih _ h]

theorem walkPass_mem (cfg : RuleConfig) (b : ℚ) :
    ∀ (cs : List Candidate) (agg : ℚ) (c2 : Candidate),
      c2 ∈ (walkPass cfg b agg cs).2 →
      ∃ c0 ∈ cs, c2 = c0 ∨ c2 = escalateIfEligible cfg c0 := by
  intro cs
  induction cs with
  | nil =>
    intro agg c2 h
    simp [walkPass] at h
  | cons c rest ih =>
    intro agg c2 h
    unfold walkPass at h
    by_cases hb : agg ≤ b
    · rw [if_pos hb] at h
      rcases List.mem_cons.mp h with h | h
      · exact ⟨c, List.mem_cons_self c rest, Or.inl h⟩
      · exact ⟨c2, List.mem_cons_of_mem c h, Or.inl rfl⟩
    · rw [if_neg hb] at h
      simp only [] at h
      rcases List.mem_cons.mp h with h | h
      · exact ⟨c, List.mem_cons_self c rest, Or.inr h⟩
      · obtain ⟨c0, hc0, hor⟩ := ih _ c2 h
        exact ⟨c0, List.mem_cons_of_mem c hc0, hor⟩

end Backend

namespace Backend

/-- The first reconciliation walk over the tagged, priority-sorted
candidates. -/
def pass1 (cfg : RuleConfig) (b : ℚ) (cs : List Candidate) : ℚ × List Candidate :=
  walkPass cfg b (aggregate (sortBy priorLE (cs.map tagEscal))) (sortBy priorLE (cs.map tagEscal))

theorem reconcile_eq_over (cfg : RuleConfig) (b : ℚ) (cs : List Candidate)
    (h0 : ¬ aggregate cs ≤ b) :
    reconcile cfg b cs =
      if (pass1 cfg b cs).1 ≤ b then (pass1 cfg b cs).2
      else (walkPass cfg b (pass1 cfg b cs).1 (pass1 cfg b cs).2).2 := by
  unfold reconcile pass1
  rw [if_neg h0]

theorem savingsType_iff (x : ℚ) :
    ((if x < 0 then SavingsType.increase else SavingsType.savings) = SavingsType.increase)
      ↔ x < 0 := by
  by_cases hx : x < 0 <;> simp [hx]

end Backend

/-- Claim C1: for every candidate list and budget ceiling the reconciler
returns a final list whose aggregate is at most the ceiling, unless every
escalation-set member has been taken all the way to FIRE; and for every
positive budget the Analyze operation returns a summary (never an error),
in which the shortfall shows up as the projected-savings delta and its
increase classification. -/
theorem C1_budget_reconciliation :
    (∀ (cfg : Backend.RuleConfig) (b : ℚ) (cs : List Backend.Candidate),
        Backend.aggregate (Backend.reconcile cfg b cs) ≤ b ∨
        ∀ c ∈ Backend.reconcile cfg b cs, c.escal = true → c.action = .FIRE) ∧
    (∀ (cfg : Backend.RuleConfig) (mkt : String → ExperienceBand → Backend.MarketBand)
        (b : ℚ) (emps : List Backend.BEmployee), 0 < b →
        ∃ resp, Backend.analyze cfg mkt b emps = .ok resp ∧
          resp.summary.projectedSavings
            = resp.summary.totalCurrentSalaries - resp.summary.totalSuggestedSalaries ∧
          (resp.summary.projectedSavingsType = .increase ↔
            resp.summary.projectedSavings < 0)) := by
  constructor
  · intro cfg b cs
    by_cases h0 : Backend.aggregate cs ≤ b
    · left
      unfold Backend.reconcile
      rw [if_pos h0]
      exact h0
    · rw [Backend.reconcile_eq_over cfg b cs h0]
      have ht1 : (Backend.pass1 cfg b cs).1 = 0 + Backend.aggregate (Backend.pass1 cfg b cs).2 :=
        Backend.walkPass_fst_eq cfg b _ 0 _ (by rw [zero_add])
      by_cases h1 : (Backend.pass1 cfg b cs).1 ≤ b
      · left
        rw [if_pos h1]
        linarith [ht1]
      · rw [if_neg h1]
        have ht2 : (Backend.walkPass cfg b (Backend.pass1 cfg b cs).1 (Backend.pass1 cfg b cs).2).1
            = 0 + Backend.aggregate
                (Backend.walkPass cfg b (Backend.pass1 cfg b cs).1 (Backend.pass1 cfg b cs).2).2 :=
          Backend.walkPass_fst_eq cfg b (Backend.pass1 cfg b cs).2 0 (Backend.pass1 cfg b cs).1 ht1
        by_cases h2 : Backend.aggregate
            (Backend.walkPass cfg b (Backend.pass1 cfg b cs).1 (Backend.pass1 cfg b cs).2).2 ≤ b
        · left
          exact h2
        · right
          intro c hc hesc
          have hfst2 : b < (Backend.walkPass cfg b (Backend.pass1 cfg b cs).1 (Backend.pass1 cfg b cs).2).1 := by
            rw [ht2]
            push_neg at h2
            linarith
          have hm2 : (Backend.walkPass cfg b (Backend.pass1 cfg b cs).1 (Backend.pass1 cfg b cs).2).2
              = (Backend.pass1 cfg b cs).2.map (Backend.escalateIfEligible cfg) :=
            Backend.walkPass_over cfg b _ _ hfst2
          have hfst1 : b < (Backend.pass1 cfg b cs).1 := not_le.mp h1
          have hm1 : (Backend.pass1 cfg b cs).2
              = (Backend.sortBy Backend.priorLE (cs.map Backend.tagEscal)).map
                  (Backend.escalateIfEligible cfg) :=
            Backend.walkPass_over cfg b _ _ hfst1
          rw [hm2, hm1] at hc
          rw [List.map_map] at hc
          obtain ⟨c0, hc0, rfl⟩ := List.mem_map.mp hc
          have hc0m : c0 ∈ cs.map Backend.tagEscal := (Backend.mem_sortBy _ _ _).mp hc0
          obtain ⟨c1, hc1, rfl⟩ := List.mem_map.mp hc0m
          simp only [Function.comp] at hesc ⊢
          rw [Backend.escalateIfEligible_escal, Backend.escalateIfEligible_escal] at hesc
          have hact : c1.action = .NO_CHANGE ∨ c1.action = .PROMOTE :=
            (Backend.tagEscal_escal_true c1).mp hesc
          exact Backend.double_escalate_fire cfg (Backend.tagEscal c1) hesc
            (by rw [Backend.tagEscal_action]; exact hact)
  · intro cfg mkt b emps hb
    unfold Backend.analyze
    rw [if_neg (not_le.mpr hb)]
    exact ⟨_, rfl, rfl, Backend.savingsType_iff _⟩

/-- Witness for claim C1 at a concrete positive budget and employee
list. -/
theorem C1_budget_reconciliation_witness :
    0 < (100 : ℚ) ∧
    ∃ resp, Backend.analyze cfg0 (fun _ _ => band0) 100 [empE123] = .ok resp ∧
      resp.summary.projectedSavings
        = resp.summary.totalCurrentSalaries - resp.summary.totalSuggestedSalaries ∧
      (resp.summary.projectedSavingsType = .increase ↔
        resp.summary.projectedSavings < 0) :=
  ⟨by norm_num, C1_budget_reconciliation.2 cfg0 (fun _ _ => band0) 100 [empE123] (by norm_num)⟩

namespace Backend

/-- Validity conditions for one candidate (configuration cut factor in
[0,1], market minimum between 0 and the current salary, PROMOTE
suggestions at least the current salary, DECREASE_SALARY suggestions
between 0 and the current salary), the shape of the data produced by the
section 4.2 rule engine. -/
def Sane (cfg : RuleConfig) (c : Candidate) : Prop :=
  0 ≤ cfg.cutFactor ∧ cfg.cutFactor ≤ 1 ∧ 0 ≤ c.band.low ∧ c.band.low ≤ c.currentSalary ∧
  (c.action = .PROMOTE → c.currentSalary ≤ c.suggestedSalary.getD c.currentSalary) ∧
  (c.action = .DECREASE_SALARY →
    0 ≤ c.suggestedSalary.getD c.currentSalary ∧
    c.suggestedSalary.getD c.currentSalary ≤ c.currentSalary)

theorem decreaseFigure_le (cfg : RuleConfig) (c : Candidate)
    (h1 : 0 ≤ cfg.cutFactor) (h2 : cfg.cutFactor ≤ 1)
    (h4 : c.band.low ≤ c.currentSalary) : decreaseFigure cfg c ≤ c.currentSalary := by
  unfold decreaseFigure
  apply max_le h4
  nlinarith [mul_nonneg h1 (sub_nonneg.mpr h4)]

theorem decreaseFigure_nonneg (cfg : RuleConfig) (c : Candidate)
    (h3 : 0 ≤ c.band.low) : 0 ≤ decreaseFigure cfg c :=
  le_trans h3 (le_max_left _ _)

theorem chain_props (cfg : RuleConfig) (c1 c2 : Candidate)
    (h : c2 = tagEscal c1 ∨ c2 = escalateIfEligible cfg (tagEscal c1) ∨
         c2 = escalateIfEligible cfg (escalateIfEligible cfg (tagEscal c1))) :
    c2.ssid = c1.ssid ∧ c2.currentSalary = c1.currentSalary ∧ c2.profit = c1.profit ∧
    severity c1.action ≤ severity c2.action ∧
    (c1.action = .FIRE → c2.action = .FIRE ∧ c2.suggestedSalary = c1.suggestedSalary) := by
  have hfire : c1.action = .FIRE → escalateIfEligible cfg (tagEscal c1) = tagEscal c1 := fun hf =>
    escalateIfEligible_fire cfg (tagEscal c1) (by rw [tagEscal_action]; exact hf)
  rcases h with h | h | h <;> subst h
  · refine ⟨rfl, rfl, rfl, ?_, ?_⟩
    · rw [tagEscal_action]
    · intro hf
      exact ⟨by rw [tagEscal_action]; exact hf, rfl⟩
  · refine ⟨?_, ?_, ?_, ?_, ?_⟩
    · rw [escalateIfEligible_ssid, tagEscal_ssid]
    · rw [escalateIfEligible_salary, tagEscal_salary]
    · rw [escalateIfEligible_profit, tagEscal_profit]
    · calc severity c1.action = severity (tagEscal c1).action := by rw [tagEscal_action]
        _ ≤ severity (escalateIfEligible cfg (tagEscal c1)).action :=
            severity_le_escalateIfEligible cfg _
    · intro hf
      rw [hfire hf]
      exact ⟨by rw [tagEscal_action]; exact hf, rfl⟩
  · refine ⟨?_, ?_, ?_, ?_, ?_⟩
    · rw [escalateIfEligible_ssid, escalateIfEligible_ssid, tagEscal_ssid]
    · rw [escalateIfEligible_salary, escalateIfEligible_salary, tagEscal_salary]
    · rw [escalateIfEligible_profit, escalateIfEligible_profit, tagEscal_profit]
    · calc severity c1.action = severity (tagEscal c1).action := by rw [tagEscal_action]
        _ ≤ severity (escalateIfEligible cfg (tagEscal c1)).action :=
            severity_le_escalateIfEligible cfg _
        _ ≤ severity (escalateIfEligible cfg (escalateIfEligible cfg (tagEscal c1))).action :=
            severity_le_escalateIfEligible cfg _
    · intro hf
      rw [hfire hf, hfire hf]
      exact ⟨by rw [tagEscal_action]; exact hf, rfl⟩

end Backend

/-- The concrete candidate used to exhibit a strict contribution decrease
under escalation. -/
def cNC : Backend.Candidate :=
  { ssid := "E1", currentSalary := 100, profit := -10, perf := .stable, band := band0
    action := .NO_CHANGE, suggestedSalary := none, escal := true }

/-- Counterexample to claim C7 as stated: escalating a NO_CHANGE candidate
with current salary 100 to DECREASE_SALARY strictly lowers its payroll
contribution (to 75 under cfg0), so escalation does decrease the
contribution; the spec sentence says never decreases while its own
ordering FIRE at most DECREASE_SALARY at most NO_CHANGE means escalation
moves the cost downward. -/
theorem C7_escalation_decreases_contribution :
    Backend.contribution (Backend.escalateOne cfg0 cNC) < Backend.contribution cNC := by
  have he : Backend.escalateOne cfg0 cNC =
      { cNC with action := .DECREASE_SALARY
                 suggestedSalary := some (Backend.decreaseFigure cfg0 cNC) } := by
    simp [Backend.escalateOne, cNC]
  rw [he]
  have hfig : Backend.decreaseFigure cfg0 cNC = 75 := by
    unfold Backend.decreaseFigure
    rw [max_eq_right] <;> norm_num [cfg0, cNC, band0]
  have h1 : Backend.contribution
      { cNC with action := .DECREASE_SALARY
                 suggestedSalary := some (Backend.decreaseFigure cfg0 cNC) }
      = Backend.decreaseFigure cfg0 cNC := rfl
  have h2 : Backend.contribution cNC = 100 := rfl
  rw [h1, h2, hfig]
  norm_num

/-- Claim C7 (amended): escalating a sane candidate one severity level
never increases its payroll contribution, per-employee payroll cost is
ordered FIRE below DECREASE_SALARY below NO_CHANGE below PROMOTE, and the
reconciler never lowers a candidate below the rule-engine severity,
preserves identity, salary and profit, and passes candidates already
marked FIRE through unchanged. -/
theorem C7_escalation_monotonicity :
    (∀ (cfg : Backend.RuleConfig) (c : Backend.Candidate), Backend.Sane cfg c →
        Backend.contribution (Backend.escalateOne cfg c) ≤ Backend.contribution c) ∧
    (∀ (cfg : Backend.RuleConfig) (c : Backend.Candidate), Backend.Sane cfg c →
        0 ≤ Backend.decreaseFigure cfg c ∧
        Backend.decreaseFigure cfg c ≤ c.currentSalary ∧
        (c.action = .PROMOTE → c.currentSalary ≤ Backend.contribution c)) ∧
    (∀ (cfg : Backend.RuleConfig) (b : ℚ) (cs : List Backend.Candidate),
        ∀ c2 ∈ Backend.reconcile cfg b cs, ∃ c0 ∈ cs,
          c2.ssid = c0.ssid ∧ c2.currentSalary = c0.currentSalary ∧ c2.profit = c0.profit ∧
          Backend.severity c0.action ≤ Backend.severity c2.action ∧
          (c0.action = .FIRE → c2.action = .FIRE ∧ c2.suggestedSalary = c0.suggestedSalary)) := by
  refine ⟨?_, ?_, ?_⟩
  · intro cfg c hs
    obtain ⟨h1, h2, h3, h4, h5, h6⟩ := hs
    cases hc : c.action with
    | FIRE =>
      have he : Backend.escalateOne cfg c = c := by simp [Backend.escalateOne, hc]
      rw [he]
    | DECREASE_SALARY =>
      have he : Backend.escalateOne cfg c
          = { c with action := .FIRE, suggestedSalary := none } := by
        simp [Backend.escalateOne, hc]
      rw [he]
      have hl : Backend.contribution { c with action := DecisionAction.FIRE, suggestedSalary := none } = 0 := rfl
      have hr : Backend.contribution c = c.suggestedSalary.getD c.currentSalary := by
        simp [Backend.contribution, hc]
      rw [hl, hr]
      exact (h6 hc).1
    | NO_CHANGE =>
      have he : Backend.escalateOne cfg c
          = { c with action := .DECREASE_SALARY
                     suggestedSalary := some (Backend.decreaseFigure cfg c) } := by
        simp [Backend.escalateOne, hc]
      rw [he]
      have hl : Backend.contribution
          { c with action := DecisionAction.DECREASE_SALARY
                   suggestedSalary := some (Backend.decreaseFigure cfg c) }
          = Backend.decreaseFigure cfg c := rfl
      have hr : Backend.contribution c = c.currentSalary := by
        simp [Backend.contribution, hc]
      rw [hl, hr]
      exact Backend.decreaseFigure_le cfg c h1 h2 h4
    | PROMOTE =>
      have he : Backend.escalateOne cfg c
          = { c with action := .DECREASE_SALARY
                     suggestedSalary := some (Backend.decreaseFigure cfg c) } := by
        simp [Backend.escalateOne, hc]
      rw [he]
      have hl : Backend.contribution
          { c with action := DecisionAction.DECREASE_SALARY
                   suggestedSalary := some (Backend.decreaseFigure cfg c) }
          = Backend.decreaseFigure cfg c := rfl
      have hr : Backend.contribution c = c.suggestedSalary.getD c.currentSalary := by
        simp [Backend.contribution, hc]
      rw [hl, hr]
      exact le_trans (Backend.decreaseFigure_le cfg c h1 h2 h4) (h5 hc)
  · intro cfg c hs
    obtain ⟨h1, h2, h3, h4, h5, h6⟩ := hs
    refine ⟨Backend.decreaseFigure_nonneg cfg c h3,
      Backend.decreaseFigure_le cfg c h1 h2 h4, ?_⟩
    intro hp
    have hr : Backend.contribution c = c.suggestedSalary.getD c.currentSalary := by
      simp [Backend.contribution, hp]
    rw [hr]
    exact h5 hp
  · intro cfg b cs c2 hc2
    by_cases h0 : Backend.aggregate cs ≤ b
    · unfold Backend.reconcile at hc2
      rw [if_pos h0] at hc2
      exact ⟨c2, hc2, rfl, rfl, rfl, le_refl _, fun hf => ⟨hf, rfl⟩⟩
    · rw [Backend.reconcile_eq_over cfg b cs h0] at hc2
      have hp1mem : ∀ d ∈ (Backend.pass1 cfg b cs).2, ∃ c1 ∈ cs,
          d = Backend.tagEscal c1 ∨ d = Backend.escalateIfEligible cfg (Backend.tagEscal c1) := by
        intro d hd
        obtain ⟨c0, hc0, hor⟩ := Backend.walkPass_mem cfg b _ _ d hd
        have hm : c0 ∈ cs.map Backend.tagEscal := (Backend.mem_sortBy _ _ _).mp hc0
        obtain ⟨c1, hc1, rfl⟩ := List.mem_map.mp hm
        exact ⟨c1, hc1, hor⟩
      split at hc2
      · obtain ⟨c1, hc1, hor⟩ := hp1mem c2 hc2
        exact ⟨c1, hc1, Backend.chain_props cfg c1 c2 (by tauto)⟩
      · obtain ⟨d, hd, hord⟩ := Backend.walkPass_mem cfg b _ _ c2 hc2
        obtain ⟨c1, hc1, hor1⟩ := hp1mem d hd
        refine ⟨c1, hc1, Backend.chain_props cfg c1 c2 ?_⟩
        rcases hord with rfl | rfl <;> rcases hor1 with rfl | rfl <;> tauto

/-- Witness for claim C7 at the concrete sane candidate cNC: escalation
does not increase its contribution. -/
theorem C7_escalation_monotonicity_witness :
    Backend.Sane cfg0 cNC ∧
    Backend.contribution (Backend.escalateOne cfg0 cNC) ≤ Backend.contribution cNC :=
  ⟨by norm_num [Backend.Sane, cNC, cfg0, band0],
   C7_escalation_monotonicity.1 cfg0 cNC (by norm_num [Backend.Sane, cNC, cfg0, band0])⟩
